import Mathlib

/-!
Verification development for the question-generation pipeline of the
Vaia question generator (sustainability-framework question merger).

The embedding models the TypeScript sources directly:
* text is `List Char` (`Str`); JS regex-based transformations become
  explicit character-list functions;
* `Math.random`-driven emoji choice becomes an explicit `Fin 12` argument;
* the external text-generation call (raced against a timeout) becomes an
  `Except Unit Str` outcome supplied by an oracle, indexed by call position;
* the static JSON document fetch becomes an `Except Unit (List FrameworkRec)`
  value (`Db`): `.error` models any fetch/parse failure;
* scores are `ℚ` (the JS arithmetic on these inputs is exact decimal).

All recursion is structural (with explicit fuel where the source consumes
more than one character per step), so every definition evaluates by `decide`.
-/

/-- Text is modelled as a list of characters (one entry per code point). -/
abbrev Str : Type := List Char

/-- Conversion from Lean string literals to the model's text type. -/
def strOf (x : String) : Str := x.toList

/-- Whitespace characters matched by the JS regex class \s (ASCII part). -/
def isWsChar (c : Char) : Bool :=
  c == ' ' || c == Char.ofNat 9 || c == Char.ofNat 10 ||
  c == Char.ofNat 13 || c == Char.ofNat 12 || c == Char.ofNat 11

/-- Worker for `splitWs`: JS `text.split(/\s+/)` semantics. `prevWs` records
whether the previous character was part of a whitespace run (so a run emits
exactly one boundary); `cur` is the current token, reversed. -/
def splitWsGo (prevWs : Bool) (cur : Str) : Str → List Str
  | [] => [cur.reverse]
  | c :: rest =>
    if isWsChar c then
      if prevWs then splitWsGo true cur rest
      else cur.reverse :: splitWsGo true [] rest
    else splitWsGo false (c :: cur) rest

/-- JS `text.split(/\s+/)`: split on maximal whitespace runs; a leading run
yields a leading empty token, a trailing run a trailing empty token, and the
empty string yields `[""]`. -/
def splitWs (t : Str) : List Str := splitWsGo false [] t

/-- Worker for `collapseWs`: JS `text.replace(/\s+/g, ' ')`. -/
def collapseWsGo (prevWs : Bool) : Str → Str
  | [] => []
  | c :: rest =>
    if isWsChar c then
      if prevWs then collapseWsGo true rest else ' ' :: collapseWsGo true rest
    else c :: collapseWsGo false rest

/-- JS `text.replace(/\s+/g, ' ')`: each whitespace run becomes one space. -/
def collapseWs (t : Str) : Str := collapseWsGo false t

/-- JS `String.prototype.trim`. -/
def trimStr (t : Str) : Str :=
  ((t.dropWhile isWsChar).reverse.dropWhile isWsChar).reverse

/-- JS `String.prototype.toLowerCase` (simple per-character lowering). -/
def toLowerStr (t : Str) : Str := t.map Char.toLower

/-- JS `String.prototype.includes`: substring containment. -/
def strIncludes : Str → Str → Bool
  | [], needle => needle.isEmpty
  | c :: rest, needle => needle.isPrefixOf (c :: rest) || strIncludes rest needle

/-- Fuelled worker for `replaceAll` (fuel is at least the text length, and
each step consumes at least one character of the text). -/
def replaceAllGo (repl target : Str) : ℕ → Str → Str
  | 0, t => t
  | Nat.succ fuel, t =>
    match t with
    | [] => []
    | c :: rest =>
      if target ≠ [] ∧ target.isPrefixOf (c :: rest) then
        repl ++ replaceAllGo repl target fuel ((c :: rest).drop target.length)
      else c :: replaceAllGo repl target fuel rest

/-- JS `text.replace(/literal/g, repl)` for a literal pattern: left-to-right,
non-overlapping, the replacement is not rescanned. -/
def replaceAll (t target repl : Str) : Str := replaceAllGo repl target t.length t

/-- Fuelled worker for `jsDedup`. -/
def jsDedupGo : ℕ → List Str → List Str
  | 0, l => l
  | _ + 1, [] => []
  | fuel + 1, w :: ws => w :: jsDedupGo fuel (ws.filter (fun x => decide (x ≠ w)))

/-- JS `new Set(list)` read back in iteration order: keep the first occurrence
of each element. -/
def jsDedup (l : List Str) : List Str := jsDedupGo l.length l

/-! ## Data model (src types.ts and the JSON document schema) -/

/-- A question as stored in the static JSON document (`framework.questions[i]`):
`{ question, category?, ref? | _id }`.  `mongoId` models the JSON `_id` field. -/
structure RawQuestion where
  question : Str
  category : Option Str := none
  ref : Option Str := none
  mongoId : Option Str := none
deriving DecidableEq

/-- One entry of `Question.originalQuestions`. -/
structure OriginalQuestion where
  text : Str
  framework : Str
  category : Option Str
  ref : Option Str
deriving DecidableEq

/-- The `Question` interface of types.ts (a merged question). -/
structure Question where
  id : Str
  text : Str
  frameworks : List Str
  originalQuestions : List OriginalQuestion
  emoji : Option Str
  category : Option Str
  ref : Str
  timestamp : Str
  generatedWithAI : Bool
deriving DecidableEq

/-- One framework record of the static JSON document
(`{_id, name, description?, questions}`). -/
structure FrameworkRec where
  name : Str
  description : Option Str := none
  questions : List RawQuestion := []
deriving DecidableEq

/-- Outcome of fetching/parsing the static JSON document; `.error` models a
non-ok response or a network/parse failure. -/
abbrev Db : Type := Except Unit (List FrameworkRec)

/-- JS `a || b` on optional strings: `a` wins iff it is present and nonempty
(`undefined` and the empty string are falsy). -/
def jsOrStr (a b : Option Str) : Option Str :=
  match a with
  | some s => if s = [] then b else some s
  | none => b

/-- Decimal rendering of a natural number, as in JS template interpolation. -/
def natToStr (n : ℕ) : Str := (Nat.repr n).toList

/-! ## Similarity scorer (`calculateQuestionSimilarity`, part_000 lines 498-638) -/

/-- Punctuation class removed by the scorer and by `normalizeQuestion`:
the JS regex `[.,\/#!$%\^&\*;:{}=\-_`~()]`. -/
def scorerPunct : List Char :=
  ['.', ',', '/', '#', '!', '$', '%', '^', '&', '*', ';', ':',
   Char.ofNat 123, Char.ofNat 125, '=', '-', '_', Char.ofNat 96, '~', '(', ')']

/-- JS `text.replace(/[.,\/#!$%\^&\*;:{}=\-_`~()]/g, '')`. -/
def stripScorerPunct (t : Str) : Str :=
  t.filter (fun c => !(decide (c ∈ scorerPunct)))

/-- The scorer's stopword list (part_000 lines 512-518; `when` appears twice
in the source, which is harmless for membership). -/
def stopWords : List Str :=
  (["what", "how", "when", "where", "which", "who", "why", "does", "do", "are", "is",
    "the", "a", "an", "in", "on", "at", "to", "for", "with", "by", "of", "and", "or",
    "but", "if", "then", "else", "when", "your", "their", "our", "its", "this", "that",
    "these", "those", "have", "has", "had", "can", "could", "will", "would", "should",
    "shall", "may", "might", "must", "need", "needs", "required", "requires"]).map (·.toList)

/-- Token extraction used by the scorer: lowercase text, strip punctuation,
split on whitespace, keep tokens longer than 3 that are not stopwords. -/
def scorerWords (q : RawQuestion) : List Str :=
  (splitWs (stripScorerPunct (toLowerStr q.question))).filter
    (fun w => decide (3 < w.length) && !(decide (w ∈ stopWords)))

/-- The nine semantic term groups (part_000 lines 536-563), in source order. -/
def semanticGroups : List (Str × List Str) :=
  [ (strOf "governance",
     (["board", "committee", "director", "oversight", "supervision", "monitoring",
       "control", "governance", "management", "leadership"]).map (·.toList)),
    (strOf "risk",
     (["risk", "compliance", "audit", "review", "assessment", "evaluation", "check",
       "verify", "validate", "assure", "assurance"]).map (·.toList)),
    (strOf "environmental",
     (["environmental", "environment", "climate", "emission", "carbon", "pollution",
       "waste", "resource", "energy", "water"]).map (·.toList)),
    (strOf "social",
     (["social", "community", "stakeholder", "employee", "labor", "human", "rights",
       "diversity", "inclusion", "safety", "health"]).map (·.toList)),
    (strOf "process",
     (["process", "procedure", "system", "framework", "standard", "guideline",
       "policy", "practice", "implementation", "execution"]).map (·.toList)),
    (strOf "performance",
     (["performance", "measure", "metric", "indicator", "target", "goal", "objective",
       "outcome", "result", "impact", "effect"]).map (·.toList)),
    (strOf "action",
     (["address", "implement", "take", "ensure", "establish", "develop", "create",
       "maintain", "improve", "enhance", "strengthen"]).map (·.toList)),
    (strOf "deficiency",
     (["deficiency", "issue", "problem", "gap", "weakness", "shortcoming", "failure",
       "noncompliance", "violation", "breach"]).map (·.toList)),
    (strOf "reporting",
     (["report", "disclose", "disclosure", "transparency", "communication", "inform",
       "document", "record", "track", "monitor"]).map (·.toList)) ]

/-- First semantic group containing the word, in source iteration order
(the per-word loop breaks at the first hit). -/
def firstGroupHit (w : Str) : Option Str :=
  (semanticGroups.find? (fun g => decide (w ∈ g.2))).map (fun g => g.1)

/-- One step of the first pass over the exact-match words: +2 and record the
group for a semantic-group word, +1 otherwise. -/
def passOneStep (acc : ℚ × List Str) (w : Str) : ℚ × List Str :=
  match firstGroupHit w with
  | some g => (acc.1 + 2, if g ∈ acc.2 then acc.2 else acc.2 ++ [g])
  | none => (acc.1 + 1, acc.2)

/-- First pass of the word-overlap scoring (part_000 lines 566-587): direct
word matches, starting from score 0 and no recorded semantic matches. -/
def passOne (matchingWords : List Str) : ℚ × List Str :=
  matchingWords.foldl passOneStep (0, [])

/-- One step of the second pass: +1.5 for a group represented in both token
lists but not already matched exactly. -/
def passTwoStep (q1Words q2Words : List Str) (acc : ℚ × List Str) (grp : Str × List Str) :
    ℚ × List Str :=
  if (∃ t ∈ grp.2, t ∈ q1Words) ∧ (∃ t ∈ grp.2, t ∈ q2Words) ∧ grp.1 ∉ acc.2 then
    (acc.1 + 3 / 2, acc.2 ++ [grp.1])
  else acc

/-- Second pass of the word-overlap scoring (part_000 lines 590-598): group
matches with different words; returns the final `wordScore`. -/
def passTwo (q1Words q2Words : List Str) (init : ℚ × List Str) : ℚ :=
  (semanticGroups.foldl (passTwoStep q1Words q2Words) init).1

/-- Category component (part_000 lines 501-505): +8 iff both categories are
present, nonempty (JS truthiness) and equal case-insensitively. -/
def categoryScore (q1 q2 : RawQuestion) : ℚ :=
  match q1.category, q2.category with
  | some c1, some c2 =>
    if c1 ≠ [] ∧ c2 ≠ [] ∧ toLowerStr c1 = toLowerStr c2 then 8 else 0
  | _, _ => 0

/-- Word-overlap component (part_000 lines 520-604): both passes, normalised
by the total number of unique tokens and scaled by 20. -/
def overlapScore (q1 q2 : RawQuestion) : ℚ :=
  let q1Words := scorerWords q1
  let q2Words := scorerWords q2
  let q1WordSet := jsDedup q1Words
  let q2WordSet := jsDedup q2Words
  let matchingWords := q1WordSet.filter (fun w => decide (w ∈ q2WordSet))
  let wordScore := passTwo q1Words q2Words (passOne matchingWords)
  let totalUniqueWords : ℚ := (q1WordSet.length : ℚ) + (q2WordSet.length : ℚ)
  if 0 < totalUniqueWords then wordScore / totalUniqueWords * 20 else 0

/-- The first three whitespace tokens of the (lowercased) text, joined by a
space and lowercased again (part_000 lines 606-607). -/
def structureOf (t : Str) : Str :=
  toLowerStr (List.intercalate [' '] ((splitWs t).take 3))

/-- Structural component (part_000 lines 606-611): +2 for an identical
three-token opening. -/
def structureScore (q1 q2 : RawQuestion) : ℚ :=
  if structureOf (toLowerStr q1.question) = structureOf (toLowerStr q2.question) then 2 else 0

/-- The eight fixed question patterns (part_000 lines 614-623). -/
def questionPatterns : List (List Str) :=
  [ (["how", "does", "ensure"]).map (·.toList),
    (["what", "measures", "taken"]).map (·.toList),
    (["how", "do", "you"]).map (·.toList),
    (["what", "processes", "place"]).map (·.toList),
    (["how", "are", "you"]).map (·.toList),
    (["what", "steps", "taken"]).map (·.toList),
    (["how", "does", "your"]).map (·.toList),
    (["what", "mechanisms", "place"]).map (·.toList) ]

/-- Pattern component (part_000 lines 625-632): +1 once, for the first
pattern whose three words occur as substrings of both lowercased texts. -/
def patternScore (q1 q2 : RawQuestion) : ℚ :=
  match questionPatterns.find? (fun pat =>
      pat.all (fun w => strIncludes (toLowerStr q1.question) w) &&
      pat.all (fun w => strIncludes (toLowerStr q2.question) w)) with
  | some _ => 1
  | none => 0

/-- The similarity scorer (part_000 lines 498-638): the four components are
summed and gated by the minimum threshold 10 — below it the pair scores 0. -/
def calculateQuestionSimilarity (q1 q2 : RawQuestion) : ℚ :=
  let similarityScore :=
    categoryScore q1 q2 + overlapScore q1 q2 + structureScore q1 q2 + patternScore q1 q2
  if 10 ≤ similarityScore then similarityScore else 0

/-! ## Per-pair merge (`createMergedQuestion`, part_000 lines 641-797) -/

/-- Characters kept by the input whitelist regex
`[^\w\s\?\.\,\;\:\-\'\/]` (word chars, whitespace, and listed punctuation). -/
def inputWhitelist (c : Char) : Bool :=
  c.isAlpha || c.isDigit || c == '_' || isWsChar c ||
  c == '?' || c == '.' || c == ',' || c == ';' || c == ':' || c == '-' ||
  c == Char.ofNat 39 || c == '/'

/-- `cleanInput` (part_000 lines 650-659): first line only, whitelist filter,
whitespace collapse, sentinel/typo repairs, trim. -/
def cleanInput (text : Str) : Str :=
  let l := text.takeWhile (fun c => !(c == Char.ofNat 10))
  let l := l.filter inputWhitelist
  let l := collapseWs l
  let l := replaceAll l (strOf "DIFFERENT_CONTEXT?") []
  let l := replaceAll l (strOf "best practicesframework") (strOf "best practices/framework")
  let l := replaceAll l (strOf "and/ or") (strOf "and/or")
  trimStr l

/-- `normalizeQuestion` (part_000 lines 665-671): lowercase, strip the scorer
punctuation class, collapse whitespace, trim. -/
def normalizeQuestion (text : Str) : Str :=
  trimStr (collapseWs (stripScorerPunct (toLowerStr text)))

/-- Characters allowed at the end of the model output
(`[^a-zA-Z0-9\s\?\.\,\;\:\-\'\/]+$` strips a trailing run of the others;
note `_` is allowed by the whitelist but not here). -/
def trailAllowed (c : Char) : Bool :=
  c.isAlpha || c.isDigit || isWsChar c ||
  c == '?' || c == '.' || c == ',' || c == ';' || c == ':' || c == '-' ||
  c == Char.ofNat 39 || c == '/'

/-- Cleanup of the raw model output (part_000 lines 733-742). -/
def cleanupAI (text : Str) : Str :=
  let l := text.takeWhile (fun c => !(c == Char.ofNat 10))
  let l := l.filter inputWhitelist
  let l := collapseWs l
  let l := l.dropWhile (fun c => !c.isAlpha)
  let l := (l.reverse.dropWhile (fun c => !(trailAllowed c))).reverse
  let l := replaceAll l (strOf "DIFFERENT_CONTEXT?") []
  let l := replaceAll l (strOf "best practicesframework") (strOf "best practices/framework")
  let l := replaceAll l (strOf "and/ or") (strOf "and/or")
  trimStr l

/-- JS `text.charAt(0).toUpperCase() + text.slice(1)`. -/
def capFirst : Str → Str
  | [] => []
  | c :: rest => c.toUpper :: rest

/-- JS `String.prototype.length` counts UTF-16 code units: astral code points
count twice. -/
def jsLen (t : Str) : ℕ :=
  (t.map (fun c => if 0x10000 ≤ c.toNat then 2 else 1)).sum

/-- First-character class of the format regex
`^[\u{1F300}-\u{1F6FF}\u{1F900}-\u{1F9FF}\u{2600}-\u{26FF}\u{2700}-\u{27BF}]`. -/
def emojiRangeFirst (c : Char) : Prop :=
  (0x1F300 ≤ c.toNat ∧ c.toNat ≤ 0x1F6FF) ∨ (0x1F900 ≤ c.toNat ∧ c.toNat ≤ 0x1F9FF) ∨
  (0x2600 ≤ c.toNat ∧ c.toNat ≤ 0x26FF) ∨ (0x2700 ≤ c.toNat ∧ c.toNat ≤ 0x27BF)

instance (c : Char) : Decidable (emojiRangeFirst c) := by
  unfold emojiRangeFirst; infer_instance

/-- The format regex of part_000 line 761: emoji-class code point, a space,
then an ASCII capital letter. -/
def formatCheck : Str → Bool
  | c1 :: c2 :: c3 :: _ =>
    decide (emojiRangeFirst c1) && (c2 == ' ') && decide ('A' ≤ c3 ∧ c3 ≤ 'Z')
  | _ => false

/-- The fixed 12-glyph emoji set (part_000 lines 678 and 713; openai.ts lines
275 and 286).  Entries 7 (shield) and 10 (scales) carry the variation
selector U+FE0F, exactly as in the source literals. -/
def validEmojis : List Str :=
  [ [Char.ofNat 0x1F31F], [Char.ofNat 0x1F504], [Char.ofNat 0x1F331],
    [Char.ofNat 0x1F30D], [Char.ofNat 0x26A1], [Char.ofNat 0x1F4BC],
    [Char.ofNat 0x1F50D], [Char.ofNat 0x1F6E1, Char.ofNat 0xFE0F],
    [Char.ofNat 0x1F91D], [Char.ofNat 0x1F4CA],
    [Char.ofNat 0x2696, Char.ofNat 0xFE0F], [Char.ofNat 0x1F310] ]

/-- `Math.floor(Math.random() * 12)` indexing into the emoji array; the
random draw is the explicit argument `e`. -/
def pickEmoji (e : Fin 12) : Str := validEmojis.getD e.val []

/-- The two `originalQuestions` entries (part_000 lines 685-698/771-784). -/
def originalQuestionsOf (framework1 framework2 : Str) (question1 question2 : RawQuestion) :
    List OriginalQuestion :=
  [ { text := cleanInput question1.question, framework := framework1,
      category := question1.category, ref := jsOrStr question1.ref question1.mongoId },
    { text := cleanInput question2.question, framework := framework2,
      category := question2.category, ref := jsOrStr question2.ref question2.mongoId } ]

/-- The merged question built on the identical-question short-circuit
(part_000 lines 677-705): the cleaned original text with an emoji prefix,
not AI-generated. -/
def identicalMergedQuestion (framework1 framework2 : Str) (question1 question2 : RawQuestion)
    (index : ℕ) (e : Fin 12) (now : Str) : Question :=
  { id := 'q' :: natToStr (index + 1)
    text := pickEmoji e ++ ' ' :: cleanInput question1.question
    frameworks := [framework1, framework2]
    originalQuestions := originalQuestionsOf framework1 framework2 question1 question2
    emoji := some (pickEmoji e)
    category := jsOrStr question1.category question2.category
    ref := framework1 ++ '-' :: framework2 ++ '-' :: natToStr index
    timestamp := now
    generatedWithAI := false }

/-- Result of one `createMergedQuestion` call: the produced question (if any)
and whether the external text-generation service was invoked. -/
structure MergeOut where
  result : Option Question
  invokedAI : Bool
deriving DecidableEq

/-- `createMergedQuestion` (part_000 lines 641-797).  `e` is the random emoji
draw; `aiOutcome` is the outcome of the `mergeQuestionsWithAI` call raced
against the 5-second timeout (`.error` = timeout/rejection); `now` is the
`new Date().toISOString()` value.  Any throw inside the try block yields
`result = none` via the catch (line 765-768). -/
def createMergedQuestion (framework1 framework2 : Str) (question1 question2 : RawQuestion)
    (index : ℕ) (_thematicConnection : Option Str) (e : Fin 12)
    (aiOutcome : Except Unit Str) (now : Str) : MergeOut :=
  let text1 := cleanInput question1.question
  let text2 := cleanInput question2.question
  if normalizeQuestion text1 = normalizeQuestion text2 then
    { result := some (identicalMergedQuestion framework1 framework2 question1 question2 index e now)
      invokedAI := false }
  else
    match aiOutcome with
    | .error _ => { result := none, invokedAI := true }
    | .ok raw =>
      let finalText := cleanupAI raw
      let finalText :=
        if finalText.getLast? ≠ some '?' ∧ finalText.getLast? ≠ some '.' then
          finalText ++ ['?']
        else finalText
      let finalText := capFirst finalText
      let finalText := pickEmoji e ++ ' ' :: finalText
      if jsLen finalText < 10 ∨ 500 < jsLen finalText then
        { result := none, invokedAI := true }
      else if formatCheck finalText then
        { result := some
            { id := 'q' :: natToStr (index + 1)
              text := finalText
              frameworks := [framework1, framework2]
              originalQuestions := originalQuestionsOf framework1 framework2 question1 question2
              emoji := some (pickEmoji e)
              category := jsOrStr question1.category question2.category
              ref := framework1 ++ '-' :: framework2 ++ '-' :: natToStr index
              timestamp := now
              generatedWithAI := true }
          invokedAI := true }
      else { result := none, invokedAI := true }

/-! ## Data access and thematic connections (part_000 lines 74-115, 293-367) -/

/-- `getQuestionsForFramework` (part_000 lines 74-93): any fetch failure is
caught and yields an empty list; an unknown framework name also yields
an empty list. -/
def getQuestionsForFramework (db : Db) (frameworkName : Str) : List RawQuestion :=
  match db with
  | .error _ => []
  | .ok data =>
    match data.find? (fun item => decide (item.name = frameworkName)) with
    | none => []
    | some framework => framework.questions

/-- `getFrameworkDescription` (part_000 lines 96-115): any fetch failure is
caught and yields the empty string, as does a missing framework or a missing
description field. -/
def getFrameworkDescription (db : Db) (frameworkName : Str) : Str :=
  match db with
  | .error _ => []
  | .ok data =>
    match data.find? (fun item => decide (item.name = frameworkName)) with
    | none => []
    | some framework => framework.description.getD []

/-- The known-connections table (part_000 lines 300-322), flattened in source
order as (outer key, inner key, connection). -/
def knownConnectionsList : List (Str × Str × Str) :=
  [ (strOf "TCFD", strOf "GRI Standards", strOf "climate transparency and environmental reporting"),
    (strOf "TCFD", strOf "Science Based Targets", strOf "science-based climate action and risk disclosure"),
    (strOf "TCFD", strOf "EU CSRD", strOf "climate-related financial and sustainability disclosures"),
    (strOf "TCFD", strOf "SASB", strOf "industry-specific climate risk assessment and disclosure"),
    (strOf "GRI Standards", strOf "SASB", strOf "comprehensive sustainability reporting and material ESG disclosure"),
    (strOf "GRI Standards", strOf "UN Global Compact", strOf "global sustainability principles and comprehensive reporting"),
    (strOf "GRI Standards", strOf "B Corp Assessment", strOf "transparency in sustainability performance and stakeholder impact"),
    (strOf "GRI Standards", strOf "EU CSRD", strOf "comprehensive sustainability reporting across global frameworks"),
    (strOf "Integrated Reporting", strOf "IIRC Framework", strOf "holistic value creation and integrated thinking"),
    (strOf "Integrated Reporting", strOf "SASB", strOf "material financial and non-financial information integration"),
    (strOf "Integrated Reporting", strOf "GRI Standards", strOf "comprehensive and strategic sustainability disclosure"),
    (strOf "IFC Listed Companies", strOf "SASB", strOf "robust governance and material risk disclosure"),
    (strOf "IFC Listed Companies", strOf "UN Global Compact", strOf "governance structures and ethical business principles") ]

/-- Lookup `knownConnections[a]?.[b]`. -/
def knownConnectionLookup (a b : Str) : Option Str :=
  (knownConnectionsList.find? (fun e => decide (e.1 = a ∧ e.2.1 = b))).map (fun e => e.2.2)

/-- The shared-keyword list scanned over both descriptions (lines 333-335). -/
def themeKeywords : List Str :=
  (["governance", "climate", "environmental", "social", "transparency",
    "sustainability", "disclosure", "reporting", "risk", "stakeholder",
    "value", "strategy", "performance", "impact", "ethical"]).map (·.toList)

/-- The default pair-key theme table (lines 346-354). -/
def defaultThemesList : List (Str × Str) :=
  [ (strOf "TCFD-GRI", strOf "climate disclosure and sustainability reporting"),
    (strOf "SASB-GRI", strOf "material sustainability reporting"),
    (strOf "UNGC-ISO26000", strOf "social responsibility principles"),
    (strOf "CSRD-IIRC", strOf "integrated sustainability disclosure"),
    (strOf "SBT-TCFD", strOf "science-based climate action"),
    (strOf "BCORP-SDG", strOf "impact measurement and sustainable development"),
    (strOf "ISO26000-UNGC", strOf "ethical business practices and social responsibility") ]

/-- Lookup `defaultThemes[key]`. -/
def defaultThemeLookup (key : Str) : Option Str :=
  (defaultThemesList.find? (fun e => decide (e.1 = key))).map (fun e => e.2)

/-- The generic fallback connection (line 366). -/
def genericTheme : Str := strOf "sustainability compliance and strategic performance"

/-- `findThematicConnection` (part_000 lines 293-367): known pair (both
orderings), then first shared keyword of both descriptions (JS truthiness:
both nonempty), then the default pair-key table (both orderings), then the
generic fallback. -/
def findThematicConnection (framework1 framework2 description1 description2 : Str) : Str :=
  match knownConnectionLookup framework1 framework2 with
  | some c => c
  | none =>
    match knownConnectionLookup framework2 framework1 with
    | some c => c
    | none =>
      match (if description1 ≠ [] ∧ description2 ≠ [] then
          themeKeywords.find? (fun kw =>
            strIncludes (toLowerStr description1) kw && strIncludes (toLowerStr description2) kw)
        else none) with
      | some kw => kw
      | none =>
        match defaultThemeLookup (framework1 ++ '-' :: framework2) with
        | some t => t
        | none =>
          match defaultThemeLookup (framework2 ++ '-' :: framework1) with
          | some t => t
          | none => genericTheme

/-! ## Ranking pipeline (`generateQuestionsFromFrameworks`, part_000 lines 118-274) -/

/-- A scored candidate pair (the entries of `allQuestionPairs`). -/
structure CandidatePair where
  framework1 : Str
  framework2 : Str
  question1 : RawQuestion
  question2 : RawQuestion
  score : ℚ
  thematicConnection : Str
deriving DecidableEq

/-- Unordered framework pairs in the double-loop order `i < j`
(part_000 lines 153-168). -/
def pairsAux : List Str → List (Str × Str)
  | [] => []
  | f :: rest => rest.map (fun g => (f, g)) ++ pairsAux rest

/-- Framework pairs with their pre-computed thematic connections. -/
def frameworkPairsOf (db : Db) (frameworks : List Str) : List (Str × Str × Str) :=
  (pairsAux frameworks).map (fun fp =>
    (fp.1, fp.2,
      findThematicConnection fp.1 fp.2
        (getFrameworkDescription db fp.1) (getFrameworkDescription db fp.2)))

/-- Cross-product scoring for one framework pair (part_000 lines 184-207):
pairs with score 0 are dropped, all others are kept with their score. -/
def questionPairsFor (db : Db) (fp : Str × Str × Str) : List CandidatePair :=
  let questions1 := getQuestionsForFramework db fp.1
  let questions2 := getQuestionsForFramework db fp.2.1
  if questions1.isEmpty ∨ questions2.isEmpty then []
  else
    questions1.flatMap (fun q1 => questions2.filterMap (fun q2 =>
      let score := calculateQuestionSimilarity q1 q2
      if 0 < score then
        some { framework1 := fp.1, framework2 := fp.2.1, question1 := q1, question2 := q2,
               score := score, thematicConnection := fp.2.2 }
      else none))

/-- `allQuestionPairs` (part_000 lines 172-212).  The source iterates the
framework pairs in chunks of 50 awaited together; the awaited results are
flattened back in submission order, so the list equals the plain
concatenation over the pairs in order. -/
def allQuestionPairs (db : Db) (frameworks : List Str) : List CandidatePair :=
  (frameworkPairsOf db frameworks).flatMap (questionPairsFor db)

/-- Descending-score order used by `sort((a, b) => b.score - a.score)`. -/
def byScoreDesc (a b : CandidatePair) : Prop := b.score ≤ a.score

instance : DecidableRel byScoreDesc := fun a b =>
  inferInstanceAs (Decidable (b.score ≤ a.score))

instance : IsTotal CandidatePair byScoreDesc :=
  ⟨fun a b => le_total b.score a.score⟩

instance : IsTrans CandidatePair byScoreDesc :=
  ⟨fun _ _ _ h1 h2 => le_trans h2 h1⟩

/-- The globally sorted candidate list (part_000 line 215).  The JS engine's
`Array.prototype.sort` is a stable sort, and stable sorting w.r.t. a total
preorder is unique, so a stable insertion sort models it exactly. -/
def sortedQuestionPairs (db : Db) (frameworks : List Str) : List CandidatePair :=
  List.insertionSort byScoreDesc (allQuestionPairs db frameworks)

/-- `selectedPairs` (part_000 line 216): the first `count` of the global
descending ranking. -/
def selectedPairs (db : Db) (frameworks : List Str) (count : ℕ) : List CandidatePair :=
  (sortedQuestionPairs db frameworks).take count

/-- Fuelled worker for the batched merge loop (part_000 lines 223-246).
`pos` is the global index of the first pair of the current batch in the
processing order; the oracle supplies, per position, the random emoji draw
and the raced external-call outcome. -/
def runBatchesGo (oracle : ℕ → Fin 12 × Except Unit Str) (now : Str) (count : ℕ) :
    ℕ → List CandidatePair → ℕ → List Question → List Question
  | 0, _, _, acc => acc
  | _ + 1, [], _, acc => acc
  | fuel + 1, p :: rest, pos, acc =>
    let batch := (p :: rest).take 10
    let batchResults := batch.enum.map (fun ip =>
      createMergedQuestion ip.2.framework1 ip.2.framework2 ip.2.question1 ip.2.question2
        (acc.length + ip.1) (some ip.2.thematicConnection)
        (oracle (pos + ip.1)).1 (oracle (pos + ip.1)).2 now)
    let acc2 := acc ++ batchResults.filterMap MergeOut.result
    if count ≤ acc2.length then acc2
    else runBatchesGo oracle now count fuel ((p :: rest).drop 10) (pos + 10) acc2

/-- The batched merge loop over the selected pairs, batch size 10, stopping
early once `count` questions have accumulated. -/
def runBatches (oracle : ℕ → Fin 12 × Except Unit Str) (now : Str) (count : ℕ)
    (pairs : List CandidatePair) : List Question :=
  runBatchesGo oracle now count pairs.length pairs 0 []

/-- The full list of generated questions (part_000 lines 218-267): the
batched loop over the selection, then — if short and more candidates exist —
one backfill round from the ranked overflow `slice(count, 2*count)`. -/
def generatedList (db : Db) (frameworks : List Str) (count : ℕ)
    (oracle : ℕ → Fin 12 × Except Unit Str) (now : Str) : List Question :=
  let allPairs := sortedQuestionPairs db frameworks
  let generatedQuestions := runBatches oracle now count (allPairs.take count)
  if generatedQuestions.length < count ∧ count < allPairs.length then
    let additionalPairs :=
      ((allPairs.drop count).take count).take (count - generatedQuestions.length)
    let additionalResults := additionalPairs.enum.map (fun ip =>
      createMergedQuestion ip.2.framework1 ip.2.framework2 ip.2.question1 ip.2.question2
        (generatedQuestions.length + ip.1) (some ip.2.thematicConnection)
        (oracle (allPairs.length + ip.1)).1 (oracle (allPairs.length + ip.1)).2 now)
    generatedQuestions ++ additionalResults.filterMap MergeOut.result
  else generatedQuestions

/-- The only error `generateQuestionsFromFrameworks` itself produces
(part_000 lines 269-271). -/
inductive GenError where
  | noQuestionsGenerated
deriving DecidableEq

/-- `generateQuestionsFromFrameworks` (part_000 lines 118-274): fewer than 2
frameworks returns an empty list normally (lines 122-124); an empty outcome
with `count > 0` throws (modelled as `.error`); otherwise the first `count`
generated questions are returned. -/
def generateQuestionsFromFrameworks (db : Db) (count : ℕ) (frameworks : List Str)
    (oracle : ℕ → Fin 12 × Except Unit Str) (now : Str) : Except GenError (List Question) :=
  if frameworks.length < 2 then .ok []
  else
    let generatedQuestions := generatedList db frameworks count oracle now
    if generatedQuestions.length = 0 ∧ 0 < count then .error .noQuestionsGenerated
    else .ok (generatedQuestions.take count)

/-! ## Keyword extractor and merge cache (openai.ts lines 130-137, 193-201) -/

/-- The extractor's own (smaller) stopword list (openai.ts line 195). -/
def extractStopwords : List Str :=
  (["and", "the", "for", "with", "that", "this", "your", "have", "from", "are", "does"]).map (·.toList)

/-- Punctuation stripped from extracted keywords (the regex `[,.?;:'"!()]`). -/
def extractPunct : List Char :=
  [',', '.', '?', ';', ':', Char.ofNat 39, Char.ofNat 34, '!', '(', ')']

/-- `extractKeywords` (openai.ts lines 193-201): split on whitespace, keep
tokens longer than 3 whose lowercasing is not a stopword, then strip the
punctuation characters, then drop tokens that became empty.  Note the length
and stopword tests run before punctuation stripping, and the kept tokens are
not lowercased. -/
def extractKeywords (text : Str) : List Str :=
  (((splitWs text).filter
      (fun word => decide (3 < word.length) && !(decide (toLowerStr word ∈ extractStopwords))))
    |>.map (fun word => word.filter (fun c => !(decide (c ∈ extractPunct))))
    ).filter (fun word => !word.isEmpty)

/-- JS `Map.prototype.set`: update in place if the key exists (keeping its
insertion position), otherwise append. -/
def jsMapSet (cache : List (Str × Str)) (k v : Str) : List (Str × Str) :=
  if cache.any (fun kv => decide (kv.1 = k)) then
    cache.map (fun kv => if kv.1 = k then (k, v) else kv)
  else cache ++ [(k, v)]

/-- JS `Map.prototype.get` (keys of a Map are unique; first match wins). -/
def jsMapGet (cache : List (Str × Str)) (k : Str) : Option Str :=
  (cache.find? (fun kv => decide (kv.1 = k))).map (fun kv => kv.2)

/-- The cache maintenance of `mergeQuestionsWithAI` (openai.ts lines 130-137):
set the key, then, if the size exceeds 100, delete the first (oldest) key —
`questionCache.keys().next().value`, i.e. the head entry. -/
def cacheInsert (cache : List (Str × Str)) (k v : Str) : List (Str × Str) :=
  let cache2 := jsMapSet cache k v
  if 100 < cache2.length then
    match cache2 with
    | [] => []
    | _ :: rest => rest
  else cache2

/-! ## Helper lemmas -/

theorem mem_jsDedupGo (x : Str) :
    ∀ (fuel : ℕ) (l : List Str), l.length ≤ fuel → (x ∈ jsDedupGo fuel l ↔ x ∈ l) := by
  intro fuel
  induction fuel with
  | zero => intro l _; rfl
  | succ n ih =>
    intro l hl
    match l with
    | [] => rfl
    | w :: ws =>
      have hlen : (ws.filter (fun x => decide (x ≠ w))).length ≤ n := by
        have h1 := List.length_filter_le (fun x => decide (x ≠ w)) ws
        simp only [List.length_cons] at hl
        omega
      simp only [jsDedupGo, List.mem_cons, ih _ hlen, List.mem_filter,
        decide_eq_true_eq]
      constructor
      · rintro (h | ⟨h, _⟩)
        · exact Or.inl h
        · exact Or.inr h
      · rintro (h | h)
        · exact Or.inl h
        · by_cases hxw : x = w
          · exact Or.inl hxw
          · exact Or.inr ⟨h, hxw⟩

theorem mem_jsDedup (x : Str) (l : List Str) : x ∈ jsDedup l ↔ x ∈ l :=
  mem_jsDedupGo x l.length l le_rfl

theorem nodup_jsDedupGo :
    ∀ (fuel : ℕ) (l : List Str), l.length ≤ fuel → (jsDedupGo fuel l).Nodup := by
  intro fuel
  induction fuel with
  | zero =>
    intro l hl
    have hnil : l = [] := List.length_eq_zero.mp (Nat.le_zero.mp hl)
    subst hnil
    simp [jsDedupGo]
  | succ n ih =>
    intro l hl
    match l with
    | [] => simp [jsDedupGo]
    | w :: ws =>
      have hlen : (ws.filter (fun x => decide (x ≠ w))).length ≤ n := by
        have h1 := List.length_filter_le (fun x => decide (x ≠ w)) ws
        simp only [List.length_cons] at hl
        omega
      simp only [jsDedupGo, List.nodup_cons]
      refine ⟨fun hmem => ?_, ih _ hlen⟩
      rw [mem_jsDedupGo w n _ hlen] at hmem
      simp [List.mem_filter] at hmem

theorem nodup_jsDedup (l : List Str) : (jsDedup l).Nodup :=
  nodup_jsDedupGo l.length l le_rfl

theorem pickEmoji_mem (e : Fin 12) : pickEmoji e ∈ validEmojis := by
  fin_cases e <;> decide

/-- A fixed oracle for concrete runs: emoji draw 0, external call failed. -/
def failingOracle : ℕ → Fin 12 × Except Unit Str := fun _ => (0, .error ())

/-! ## C1 -/

/-- C1 counterexample: called with a single framework name, the operation
returns the normal result `.ok []` — an empty list, not an error.  (The
claimed `InsufficientFrameworks` failure does not exist in the code: lines
122-124 of the source `return []`.) -/
theorem singleFramework_returns_ok_empty :
    generateQuestionsFromFrameworks (.error ()) 1 [strOf "GRI"] failingOracle [] = .ok [] := by
  rfl

/-- C1 (amended): for every call of `generateQuestionsFromFrameworks` with
fewer than 2 framework names, the operation returns an empty list as a
normal result (no error is raised). -/
theorem fewFrameworks_returns_empty (db : Db) (count : ℕ) (frameworks : List Str)
    (oracle : ℕ → Fin 12 × Except Unit Str) (now : Str)
    (h : frameworks.length < 2) :
    generateQuestionsFromFrameworks db count frameworks oracle now = .ok [] := by
  unfold generateQuestionsFromFrameworks
  rw [if_pos h]

/-- C1 witness: the amended theorem applied to a concrete one-framework call. -/
theorem fewFrameworks_returns_empty_witness :
    ([strOf "GRI"] : List Str).length < 2 ∧
    generateQuestionsFromFrameworks (.error ()) 3 [strOf "GRI"] failingOracle [] = .ok [] :=
  ⟨by decide, fewFrameworks_returns_empty (.error ()) 3 [strOf "GRI"] failingOracle [] (by decide)⟩

/-! ## C8 -/

/-- C8 counterexample: when the framework/question fetch fails, the failure is
absorbed locally — `getQuestionsForFramework` returns an empty question list
and `getFrameworkDescription` an empty description (part_000 lines 89-92 and
111-114 catch and return) — and a full run over two frameworks with a failing
fetch ends in `NoQuestionsGenerated`, not in any data-load error. -/
theorem dataLoadFailure_absorbed_counterexample :
    getQuestionsForFramework (.error ()) (strOf "GRI") = [] ∧
    getFrameworkDescription (.error ()) (strOf "GRI") = [] ∧
    generateQuestionsFromFrameworks (.error ()) 1 [strOf "GRI", strOf "SASB"] failingOracle []
      = .error .noQuestionsGenerated := by
  refine ⟨rfl, rfl, ?_⟩
  rfl

/-- C8 (amended): a fetch failure is absorbed locally for every framework
name: the question list is empty and the description is the empty string; no
data-load error is propagated to the caller of
`generateQuestionsFromFrameworks`. -/
theorem dataLoadFailure_absorbed (frameworkName : Str) :
    getQuestionsForFramework (.error ()) frameworkName = [] ∧
    getFrameworkDescription (.error ()) frameworkName = [] :=
  ⟨rfl, rfl⟩

/-! ## C9 -/

/-- C9 counterexample: on the input `"Reporting and, governance"` the
extractor keeps `"and"` — length 3 and a stopword (the token `"and,"` passed
the length and stopword tests before its punctuation was stripped) — and
keeps `"Reporting"` without lowercasing it. -/
theorem extractKeywords_counterexample :
    strOf "and" ∈ extractKeywords (strOf "Reporting and, governance") ∧
    strOf "and" ∈ extractStopwords ∧
    (strOf "and").length ≤ 3 ∧
    strOf "Reporting" ∈ extractKeywords (strOf "Reporting and, governance") ∧
    toLowerStr (strOf "Reporting") ≠ strOf "Reporting" := by
  decide

/-- C9 (amended): every token returned by `extractKeywords` is nonempty and
arises from a whitespace-delimited token of the input whose length (before
punctuation stripping) exceeds 3 and whose lowercasing is not in the
extractor's stopword list, by deleting the fixed punctuation characters;
tokens keep their original case, and after stripping they may be short or
equal a stopword; empty input yields empty output. -/
theorem extractKeywords_amended (text : Str) :
    (∀ tok ∈ extractKeywords text,
      tok ≠ [] ∧ ∃ w ∈ splitWs text, 3 < w.length ∧ toLowerStr w ∉ extractStopwords ∧
        tok = w.filter (fun c => !(decide (c ∈ extractPunct)))) ∧
    extractKeywords [] = [] := by
  constructor
  · intro tok htok
    unfold extractKeywords at htok
    simp only [List.mem_filter, List.mem_map, Bool.and_eq_true, decide_eq_true_eq,
      Bool.not_eq_true', decide_eq_false_iff_not] at htok
    obtain ⟨⟨w, ⟨hw, hlen, hstop⟩, rfl⟩, hne⟩ := htok
    rw [List.isEmpty_eq_false_iff_exists_mem] at hne
    obtain ⟨x, hx⟩ := hne
    exact ⟨List.ne_nil_of_mem hx, w, hw, hlen, hstop, rfl⟩
  · rfl

/-- C9 witness: the amended theorem at a concrete input and token. -/
theorem extractKeywords_amended_witness :
    strOf "governance" ∈ extractKeywords (strOf "Reporting and, governance") ∧
    (strOf "governance" ≠ [] ∧
      ∃ w ∈ splitWs (strOf "Reporting and, governance"),
        3 < w.length ∧ toLowerStr w ∉ extractStopwords ∧
        strOf "governance" = w.filter (fun c => !(decide (c ∈ extractPunct)))) :=
  ⟨by decide,
    (extractKeywords_amended (strOf "Reporting and, governance")).1
      (strOf "governance") (by decide)⟩

/-! ## C10 -/

theorem jsMapSet_fresh {cache : List (Str × Str)} {k : Str} (v : Str)
    (h : k ∉ cache.map Prod.fst) : jsMapSet cache k v = cache ++ [(k, v)] := by
  unfold jsMapSet
  rw [if_neg]
  simp only [List.any_eq_true, decide_eq_true_eq, not_exists, not_and]
  intro kv hkv hk
  exact h (hk ▸ List.mem_map_of_mem Prod.fst hkv)

theorem cacheInsert_fresh_small {cache : List (Str × Str)} {k : Str} (v : Str)
    (hfresh : k ∉ cache.map Prod.fst) (hsmall : cache.length ≤ 99) :
    cacheInsert cache k v = cache ++ [(k, v)] := by
  unfold cacheInsert
  rw [jsMapSet_fresh v hfresh, if_neg]
  simp only [List.length_append, List.length_singleton, not_lt]
  omega

theorem cacheInsert_fresh_full {x : Str × Str} {xs : List (Str × Str)} {k : Str} (v : Str)
    (hfresh : k ∉ (x :: xs).map Prod.fst) (hfull : (x :: xs).length = 100) :
    cacheInsert (x :: xs) k v = xs ++ [(k, v)] := by
  unfold cacheInsert
  rw [jsMapSet_fresh v hfresh, if_pos]
  · rfl
  · simp only [List.cons_append, List.length_cons, List.length_append, List.length_singleton]
    simp only [List.length_cons] at hfull
    omega

theorem foldl_cacheInsert_fresh :
    ∀ (l cache : List (Str × Str)), ((cache ++ l).map Prod.fst).Nodup →
      cache.length + l.length ≤ 100 →
      l.foldl (fun c kv => cacheInsert c kv.1 kv.2) cache = cache ++ l := by
  intro l
  induction l with
  | nil => intro cache _ _; simp
  | cons kv l ih =>
    intro cache hnd hlen
    have hfresh : kv.1 ∉ cache.map Prod.fst := by
      intro hmem
      rw [List.map_append, List.nodup_append] at hnd
      exact hnd.2.2 hmem (by simp)
    have hsmall : cache.length ≤ 99 := by
      rw [List.length_cons] at hlen
      omega
    have hstep : cacheInsert cache kv.1 kv.2 = cache ++ [kv] := by
      rw [cacheInsert_fresh_small kv.2 hfresh hsmall, Prod.mk.eta]
    rw [List.foldl_cons, hstep]
    have hrearr : cache ++ kv :: l = (cache ++ [kv]) ++ l := by
      rw [List.append_assoc, List.singleton_append]
    have hnd2 : (((cache ++ [kv]) ++ l).map Prod.fst).Nodup := by
      rw [← hrearr]
      exact hnd
    have hlen2 : (cache ++ [kv]).length + l.length ≤ 100 := by
      rw [List.length_append, List.length_singleton]
      rw [List.length_cons] at hlen
      omega
    rw [ih (cache ++ [kv]) hnd2 hlen2, hrearr]

theorem jsMapSet_length (cache : List (Str × Str)) (k v : Str) :
    (jsMapSet cache k v).length = cache.length ∨
    (jsMapSet cache k v).length = cache.length + 1 := by
  unfold jsMapSet
  split
  · left
    rw [List.length_map]
  · right
    rw [List.length_append, List.length_singleton]

theorem cacheInsert_length_le (cache : List (Str × Str)) (k v : Str)
    (hle : cache.length ≤ 100) : (cacheInsert cache k v).length ≤ 100 := by
  simp only [cacheInsert]
  split
  · rcases h : jsMapSet cache k v with _ | ⟨x, xs⟩
    · simp
    · show xs.length ≤ 100
      rcases jsMapSet_length cache k v with hl | hl <;>
        rw [h, List.length_cons] at hl <;> omega
  · rename_i hgt
    exact not_lt.mp hgt

theorem find?_assoc_of_nodupKeys :
    ∀ (l : List (Str × Str)), (l.map Prod.fst).Nodup →
      ∀ kv ∈ l, l.find? (fun e => decide (e.1 = kv.1)) = some kv := by
  intro l
  induction l with
  | nil => intro _ kv h; simp at h
  | cons x xs ih =>
    intro hnd kv hkv
    rw [List.map_cons, List.nodup_cons] at hnd
    rcases List.mem_cons.mp hkv with rfl | hmem
    · simp [List.find?_cons_of_pos]
    · have hne : ¬ (x.1 = kv.1) := by
        intro h
        exact hnd.1 (h ▸ List.mem_map_of_mem Prod.fst hmem)
      rw [List.find?_cons_of_neg _ (by simpa using hne)]
      exact ih hnd.2 kv hmem

/-- C10: the merge-result cache (openai.ts lines 130-137) holds at most 100
entries after every insertion that starts within the bound, and eviction is
FIFO: after 101 distinct keys are inserted into an empty cache, the
first-inserted key is no longer retrievable while the other 100 keys all
remain retrievable with their values. -/
theorem cache_bounded_and_fifo (k0 v0 : Str) (rest : List (Str × Str))
    (hnd : (((k0, v0) :: rest).map Prod.fst).Nodup)
    (hlen : rest.length = 100) :
    (∀ (cache : List (Str × Str)) (k v : Str),
      cache.length ≤ 100 → (cacheInsert cache k v).length ≤ 100) ∧
    jsMapGet (((k0, v0) :: rest).foldl (fun c kv => cacheInsert c kv.1 kv.2) []) k0 = none ∧
    (∀ kv ∈ rest,
      jsMapGet (((k0, v0) :: rest).foldl (fun c kv => cacheInsert c kv.1 kv.2) []) kv.1
        = some kv.2) := by
  have hrest_ne : rest ≠ [] := by intro h; rw [h] at hlen; simp at hlen
  have hsplit : rest = rest.dropLast ++ [rest.getLast hrest_ne] :=
    (List.dropLast_append_getLast hrest_ne).symm
  have hfinal :
      ((k0, v0) :: rest).foldl (fun c kv => cacheInsert c kv.1 kv.2) [] = rest := by
    conv_lhs => rw [hsplit]
    rw [← List.cons_append, List.foldl_append]
    have hsub : ((k0, v0) :: rest.dropLast).Sublist ((k0, v0) :: rest) :=
      List.Sublist.cons₂ _ (List.dropLast_sublist rest)
    have hnd2 : (((k0, v0) :: rest.dropLast).map Prod.fst).Nodup :=
      hnd.sublist (hsub.map Prod.fst)
    have hlen1 : ([] : List (Str × Str)).length + ((k0, v0) :: rest.dropLast).length ≤ 100 := by
      simp only [List.length_nil, List.length_cons, List.length_dropLast, hlen]
      omega
    have hinner :
        ((k0, v0) :: rest.dropLast).foldl (fun c kv => cacheInsert c kv.1 kv.2) []
          = (k0, v0) :: rest.dropLast := by
      have := foldl_cacheInsert_fresh ((k0, v0) :: rest.dropLast) [] (by simpa using hnd2)
        hlen1
      simpa using this
    rw [hinner]
    simp only [List.foldl_cons, List.foldl_nil]
    have hnd3 : ((((k0, v0) :: rest.dropLast) ++ [rest.getLast hrest_ne]).map Prod.fst).Nodup := by
      rw [List.cons_append, ← hsplit]
      exact hnd
    have hfresh : (rest.getLast hrest_ne).1 ∉ ((k0, v0) :: rest.dropLast).map Prod.fst := by
      rw [List.map_append, List.nodup_append] at hnd3
      intro hmem
      exact hnd3.2.2 hmem (by simp)
    have hfull : ((k0, v0) :: rest.dropLast).length = 100 := by
      simp only [List.length_cons, List.length_dropLast, hlen]
    have hstep := cacheInsert_fresh_full (rest.getLast hrest_ne).2 hfresh hfull
    rw [Prod.mk.eta] at hstep
    rw [hstep]
    conv_rhs => rw [hsplit]
  have hk0 : k0 ∉ rest.map Prod.fst := by
    rw [List.map_cons, List.nodup_cons] at hnd
    exact hnd.1
  have hndrest : (rest.map Prod.fst).Nodup := by
    rw [List.map_cons, List.nodup_cons] at hnd
    exact hnd.2
  refine ⟨fun cache k v hle => cacheInsert_length_le cache k v hle, ?_, ?_⟩
  · rw [hfinal]
    unfold jsMapGet
    rw [List.find?_eq_none.mpr]
    · rfl
    · intro kv hkv
      simp only [decide_eq_true_eq]
      intro h
      exact hk0 (h ▸ List.mem_map_of_mem Prod.fst hkv)
  · intro kv hkv
    rw [hfinal]
    unfold jsMapGet
    rw [find?_assoc_of_nodupKeys rest hndrest kv hkv]
    rfl

/-- The 100 concrete later cache entries used by the C10 witness
(keys `k1` … `k100`). -/
def cacheEntriesW : List (Str × Str) :=
  (List.range 100).map (fun n => (strOf "k" ++ natToStr (n + 1), strOf "v"))

/-- C10 witness: the theorem applied to 101 concrete distinct keys. -/
theorem cache_bounded_and_fifo_witness :
    ((((strOf "k0", strOf "v") :: cacheEntriesW).map Prod.fst).Nodup ∧
      cacheEntriesW.length = 100) ∧
    ((∀ (cache : List (Str × Str)) (k v : Str),
        cache.length ≤ 100 → (cacheInsert cache k v).length ≤ 100) ∧
      jsMapGet (((strOf "k0", strOf "v") :: cacheEntriesW).foldl
        (fun c kv => cacheInsert c kv.1 kv.2) []) (strOf "k0") = none ∧
      (∀ kv ∈ cacheEntriesW,
        jsMapGet (((strOf "k0", strOf "v") :: cacheEntriesW).foldl
          (fun c kv => cacheInsert c kv.1 kv.2) []) kv.1 = some kv.2)) :=
  ⟨⟨by decide, by decide⟩,
    cache_bounded_and_fifo (strOf "k0") (strOf "v") cacheEntriesW (by decide) (by decide)⟩

/-! ## C3 and C4 -/

theorem calcSimilarity_zero_or_ge (q1 q2 : RawQuestion) :
    calculateQuestionSimilarity q1 q2 = 0 ∨ 10 ≤ calculateQuestionSimilarity q1 q2 := by
  simp only [calculateQuestionSimilarity]
  split
  · rename_i h
    exact Or.inr h
  · exact Or.inl rfl

theorem score_eq_of_mem_questionPairsFor {db : Db} {fp : Str × Str × Str} {p : CandidatePair}
    (h : p ∈ questionPairsFor db fp) :
    ∃ q1 q2, p.score = calculateQuestionSimilarity q1 q2 ∧ 0 < p.score := by
  simp only [questionPairsFor] at h
  split at h
  · simp at h
  · rw [List.mem_flatMap] at h
    obtain ⟨q1, _, h2⟩ := h
    rw [List.mem_filterMap] at h2
    obtain ⟨q2, _, heq⟩ := h2
    split at heq
    · rename_i hpos
      cases heq
      exact ⟨q1, q2, rfl, hpos⟩
    · cases heq

/-- C3: the similarity scorer returns either 0 (rejected) or a value at least
the threshold 10 (part_000 lines 634-637), and consequently every candidate
pair that reaches the ranker's output (`selectedPairs`) has score at least 10
— pairs scoring 0 were never emitted (lines 194-205) and no below-threshold
score exists. -/
theorem similarity_threshold_gate :
    (∀ q1 q2 : RawQuestion,
      calculateQuestionSimilarity q1 q2 = 0 ∨ 10 ≤ calculateQuestionSimilarity q1 q2) ∧
    (∀ (db : Db) (frameworks : List Str) (count : ℕ) (p : CandidatePair),
      p ∈ selectedPairs db frameworks count → 10 ≤ p.score) := by
  refine ⟨calcSimilarity_zero_or_ge, ?_⟩
  intro db frameworks count p hp
  have h1 : p ∈ sortedQuestionPairs db frameworks := List.mem_of_mem_take hp
  rw [sortedQuestionPairs, List.mem_insertionSort] at h1
  rw [allQuestionPairs, List.mem_flatMap] at h1
  obtain ⟨fp, _, hmem⟩ := h1
  obtain ⟨q1, q2, hscore, hpos⟩ := score_eq_of_mem_questionPairsFor hmem
  rcases calcSimilarity_zero_or_ge q1 q2 with h0 | h10
  · rw [hscore, h0] at hpos
    exact absurd hpos (lt_irrefl 0)
  · rw [hscore]
    exact h10

/-- Concrete framework data for the C3 witness: two frameworks, one question
each, scoring 22 against each other. -/
def witnessDb : Db :=
  .ok [ { name := strOf "F", description := none,
          questions := [{ question := strOf "audit" }] },
        { name := strOf "G", description := none,
          questions := [{ question := strOf "audit" }] } ]

/-- The single candidate pair the witness pipeline produces. -/
def witnessPair : CandidatePair :=
  { framework1 := strOf "F", framework2 := strOf "G",
    question1 := { question := strOf "audit" }, question2 := { question := strOf "audit" },
    score := 22, thematicConnection := genericTheme }

unseal Rat.add Rat.mul Rat.inv Rat.ofScientific in
/-- C3 witness: the theorem applied to a concrete selected pair. -/
theorem similarity_threshold_gate_witness :
    witnessPair ∈ selectedPairs witnessDb [strOf "F", strOf "G"] 1 ∧
    10 ≤ witnessPair.score :=
  ⟨by decide,
    similarity_threshold_gate.2 witnessDb [strOf "F", strOf "G"] 1 witnessPair (by decide)⟩

/-- C4: the pair selector sorts the surviving candidates of all framework
pairs together (the single list `allQuestionPairs`, part_000 line 215) in
descending score order and takes the first `count` (line 216): its output is
sorted descending by score and has length at most `count`. -/
theorem rank_select_sorted_bounded (db : Db) (frameworks : List Str) (count : ℕ) :
    List.Sorted (fun a b : CandidatePair => b.score ≤ a.score)
      (selectedPairs db frameworks count) ∧
    (selectedPairs db frameworks count).length ≤ count := by
  constructor
  · have hs : List.Sorted byScoreDesc (sortedQuestionPairs db frameworks) :=
      List.sorted_insertionSort byScoreDesc (allQuestionPairs db frameworks)
    exact List.Pairwise.sublist (List.take_sublist count _) hs
  · exact List.length_take_le count (sortedQuestionPairs db frameworks)

/-! ## C5 -/

/-- C5: for every candidate pair whose cleaned question texts are equal after
normalization, `createMergedQuestion` never invokes the external service and
returns a merged question flagged as not AI-generated whose text is an emoji
of the fixed set, a space, and the (cleaned) first question text
(part_000 lines 664-705). -/
theorem identical_questions_shortcircuit (framework1 framework2 : Str)
    (question1 question2 : RawQuestion) (index : ℕ) (theme : Option Str) (e : Fin 12)
    (aiOutcome : Except Unit Str) (now : Str)
    (h : normalizeQuestion (cleanInput question1.question)
        = normalizeQuestion (cleanInput question2.question)) :
    (createMergedQuestion framework1 framework2 question1 question2 index theme e
        aiOutcome now).invokedAI = false ∧
    (createMergedQuestion framework1 framework2 question1 question2 index theme e
        aiOutcome now).result
      = some (identicalMergedQuestion framework1 framework2 question1 question2 index e now) ∧
    (identicalMergedQuestion framework1 framework2 question1 question2 index e now).generatedWithAI
      = false ∧
    (identicalMergedQuestion framework1 framework2 question1 question2 index e now).text
      = pickEmoji e ++ ' ' :: cleanInput question1.question ∧
    pickEmoji e ∈ validEmojis := by
  simp only [createMergedQuestion]
  rw [if_pos h]
  exact ⟨rfl, rfl, rfl, rfl, pickEmoji_mem e⟩

/-- C5 witness: two byte-identical question texts. -/
theorem identical_questions_shortcircuit_witness :
    (normalizeQuestion (cleanInput (strOf "Audit scope?"))
      = normalizeQuestion (cleanInput (strOf "Audit scope?"))) ∧
    ((createMergedQuestion (strOf "F") (strOf "G") { question := strOf "Audit scope?" }
        { question := strOf "Audit scope?" } 0 none 0 (.error ()) []).invokedAI = false ∧
      (createMergedQuestion (strOf "F") (strOf "G") { question := strOf "Audit scope?" }
        { question := strOf "Audit scope?" } 0 none 0 (.error ()) []).result
        = some (identicalMergedQuestion (strOf "F") (strOf "G")
            { question := strOf "Audit scope?" } { question := strOf "Audit scope?" } 0 0 []) ∧
      (identicalMergedQuestion (strOf "F") (strOf "G") { question := strOf "Audit scope?" }
        { question := strOf "Audit scope?" } 0 0 []).generatedWithAI = false ∧
      (identicalMergedQuestion (strOf "F") (strOf "G") { question := strOf "Audit scope?" }
        { question := strOf "Audit scope?" } 0 0 []).text
        = pickEmoji 0 ++ ' ' :: cleanInput (strOf "Audit scope?") ∧
      pickEmoji 0 ∈ validEmojis) :=
  ⟨by decide,
    identical_questions_shortcircuit (strOf "F") (strOf "G") { question := strOf "Audit scope?" }
      { question := strOf "Audit scope?" } 0 none 0 (.error ()) [] (by decide)⟩

/-! ## C2 -/

theorem capFirst_getLast {t : Str} {c : Char} (h : t.getLast? = some c)
    (hc : c.toUpper = c) : (capFirst t).getLast? = some c := by
  match t with
  | [] => simp at h
  | [a] =>
    simp only [List.getLast?_singleton, Option.some.injEq] at h
    subst h
    simp only [capFirst, List.getLast?_singleton, Option.some.injEq]
    exact hc
  | a :: b :: l =>
    rw [List.getLast?_cons_cons] at h
    simp only [capFirst]
    rw [List.getLast?_cons_cons]
    exact h

theorem getLast?_prepend {l t : Str} {c2 c : Char} (h : t.getLast? = some c) :
    (l ++ c2 :: t).getLast? = some c := by
  match t, h with
  | [], h => simp at h
  | x :: xs, h =>
    rw [List.getLast?_append, List.getLast?_cons_cons, h]
    rfl

/-- C2 (amended): every `Question` returned by `createMergedQuestion` (on any
success path) has a text that starts with one glyph of the fixed 12-emoji set
followed by a single space; on the model-merge path the text additionally
ends with `?` or `.` (line 745 appends `?` only when the cleaned output ends
with neither), while the identical-question short-circuit keeps the cleaned
original text's ending, which need not be `?`. -/
theorem merged_question_format (framework1 framework2 : Str)
    (question1 question2 : RawQuestion) (index : ℕ) (theme : Option Str) (e : Fin 12)
    (aiOutcome : Except Unit Str) (now : Str) (q : Question)
    (hres : (createMergedQuestion framework1 framework2 question1 question2 index theme e
        aiOutcome now).result = some q) :
    (∃ em ∈ validEmojis, ∃ r : Str, q.text = em ++ ' ' :: r) ∧
    (q.generatedWithAI = true →
      q.text.getLast? = some '?' ∨ q.text.getLast? = some '.') := by
  simp only [createMergedQuestion] at hres
  split at hres
  · rw [Option.some.injEq] at hres
    subst hres
    refine ⟨⟨pickEmoji e, pickEmoji_mem e, cleanInput question1.question, rfl⟩, ?_⟩
    intro hAI
    simp [identicalMergedQuestion] at hAI
  · rcases aiOutcome with _ | raw
    · simp at hres
    · simp only at hres
      split at hres
      · split at hres
        · simp at hres
        · split at hres
          · rw [Option.some.injEq] at hres
            subst hres
            refine ⟨⟨pickEmoji e, pickEmoji_mem e, _, rfl⟩, fun _ => ?_⟩
            left
            exact getLast?_prepend
              (capFirst_getLast (List.getLast?_concat (cleanupAI raw)) (by decide))
          · simp at hres
      · rename_i hend
        split at hres
        · simp at hres
        · split at hres
          · rw [Option.some.injEq] at hres
            subst hres
            refine ⟨⟨pickEmoji e, pickEmoji_mem e, _, rfl⟩, fun _ => ?_⟩
            rcases not_and_or.mp hend with h | h
            · left
              exact getLast?_prepend (capFirst_getLast (not_ne_iff.mp h) (by decide))
            · right
              exact getLast?_prepend (capFirst_getLast (not_ne_iff.mp h) (by decide))
          · simp at hres

/-- C2 counterexample: on the identical-question short-circuit with a cleaned
text ending in a period, the returned merged question's text does not end
with `?` — refuting the claim that every returned text ends with `?`. -/
theorem merged_question_format_counterexample :
    (createMergedQuestion (strOf "F") (strOf "G")
        { question := strOf "Describe governance." } { question := strOf "Describe governance." }
        0 none 0 (.error ()) []).result
      = some (identicalMergedQuestion (strOf "F") (strOf "G")
          { question := strOf "Describe governance." } { question := strOf "Describe governance." }
          0 0 []) ∧
    (identicalMergedQuestion (strOf "F") (strOf "G")
        { question := strOf "Describe governance." } { question := strOf "Describe governance." }
        0 0 []).text.getLast? ≠ some '?' ∧
    (identicalMergedQuestion (strOf "F") (strOf "G")
        { question := strOf "Describe governance." } { question := strOf "Describe governance." }
        0 0 []).text.getLast? = some '.' := by
  refine ⟨by decide, by decide, by decide⟩

/-- C2 witness: the amended theorem at a concrete merged question. -/
theorem merged_question_format_witness :
    ((createMergedQuestion (strOf "F") (strOf "G") { question := strOf "Audit scope?" }
        { question := strOf "Audit scope?" } 0 none 0 (.error ()) []).result
      = some (identicalMergedQuestion (strOf "F") (strOf "G")
          { question := strOf "Audit scope?" } { question := strOf "Audit scope?" } 0 0 [])) ∧
    ((∃ em ∈ validEmojis, ∃ r : Str,
        (identicalMergedQuestion (strOf "F") (strOf "G") { question := strOf "Audit scope?" }
          { question := strOf "Audit scope?" } 0 0 []).text = em ++ ' ' :: r) ∧
      ((identicalMergedQuestion (strOf "F") (strOf "G") { question := strOf "Audit scope?" }
          { question := strOf "Audit scope?" } 0 0 []).generatedWithAI = true →
        (identicalMergedQuestion (strOf "F") (strOf "G") { question := strOf "Audit scope?" }
          { question := strOf "Audit scope?" } 0 0 []).text.getLast? = some '?' ∨
        (identicalMergedQuestion (strOf "F") (strOf "G") { question := strOf "Audit scope?" }
          { question := strOf "Audit scope?" } 0 0 []).text.getLast? = some '.')) :=
  ⟨by decide,
    merged_question_format (strOf "F") (strOf "G") { question := strOf "Audit scope?" }
      { question := strOf "Audit scope?" } 0 none 0 (.error ()) []
      (identicalMergedQuestion (strOf "F") (strOf "G") { question := strOf "Audit scope?" }
        { question := strOf "Audit scope?" } 0 0 []) (by decide)⟩

/-! ## C7 -/

/-- C7: on the main path (at least 2 framework names, part_000 lines 269-273)
`generateQuestionsFromFrameworks` fails with `NoQuestionsGenerated` exactly
when zero merged questions were produced while `count > 0`; when at least one
but fewer than `count` merges succeed, the partial list of successes is
returned unchanged — no error and no padding. -/
theorem no_questions_generated_iff (db : Db) (frameworks : List Str) (count : ℕ)
    (oracle : ℕ → Fin 12 × Except Unit Str) (now : Str)
    (h2 : 2 ≤ frameworks.length) :
    (generateQuestionsFromFrameworks db count frameworks oracle now
        = .error .noQuestionsGenerated
      ↔ generatedList db frameworks count oracle now = [] ∧ 0 < count) ∧
    (generatedList db frameworks count oracle now ≠ [] →
      generateQuestionsFromFrameworks db count frameworks oracle now
        = .ok ((generatedList db frameworks count oracle now).take count)) ∧
    (generatedList db frameworks count oracle now ≠ [] →
      (generatedList db frameworks count oracle now).length < count →
      generateQuestionsFromFrameworks db count frameworks oracle now
        = .ok (generatedList db frameworks count oracle now)) := by
  have hnot : ¬ frameworks.length < 2 := not_lt.mpr h2
  refine ⟨?_, ?_, ?_⟩
  · simp only [generateQuestionsFromFrameworks]
    rw [if_neg hnot]
    split
    · rename_i hcond
      simp only [true_iff]
      exact ⟨List.length_eq_zero.mp hcond.1, hcond.2⟩
    · rename_i hcond
      constructor
      · intro h
        cases h
      · intro ⟨hnil, hpos⟩
        exact absurd ⟨by rw [hnil]; rfl, hpos⟩ hcond
  · intro hne
    simp only [generateQuestionsFromFrameworks]
    rw [if_neg hnot, if_neg]
    intro ⟨hzero, _⟩
    exact hne (List.length_eq_zero.mp hzero)
  · intro hne hlt
    simp only [generateQuestionsFromFrameworks]
    rw [if_neg hnot, if_neg, List.take_of_length_le (le_of_lt hlt)]
    intro ⟨hzero, _⟩
    exact hne (List.length_eq_zero.mp hzero)

/-- C7 witness: a concrete two-framework run whose fetch fails, so zero
questions are generated and the run errors. -/
theorem no_questions_generated_iff_witness :
    2 ≤ ([strOf "GRI", strOf "SASB"] : List Str).length ∧
    ((generateQuestionsFromFrameworks (.error ()) 1 [strOf "GRI", strOf "SASB"] failingOracle []
        = .error .noQuestionsGenerated
      ↔ generatedList (.error ()) [strOf "GRI", strOf "SASB"] 1 failingOracle [] = [] ∧ 0 < 1) ∧
    (generatedList (.error ()) [strOf "GRI", strOf "SASB"] 1 failingOracle [] ≠ [] →
      generateQuestionsFromFrameworks (.error ()) 1 [strOf "GRI", strOf "SASB"] failingOracle []
        = .ok ((generatedList (.error ()) [strOf "GRI", strOf "SASB"] 1 failingOracle []).take 1)) ∧
    (generatedList (.error ()) [strOf "GRI", strOf "SASB"] 1 failingOracle [] ≠ [] →
      (generatedList (.error ()) [strOf "GRI", strOf "SASB"] 1 failingOracle []).length < 1 →
      generateQuestionsFromFrameworks (.error ()) 1 [strOf "GRI", strOf "SASB"] failingOracle []
        = .ok (generatedList (.error ()) [strOf "GRI", strOf "SASB"] 1 failingOracle []))) :=
  ⟨by decide,
    no_questions_generated_iff (.error ()) [strOf "GRI", strOf "SASB"] 1 failingOracle []
      (by decide)⟩

/-! ## C6 -/

/-- Score contribution of one exact-match word in the first pass. -/
def passOneWeight (w : Str) : ℚ := if (firstGroupHit w).isSome then 2 else 1

theorem passOne_fst :
    ∀ (l : List Str) (s : ℚ) (m : List Str),
      (l.foldl passOneStep (s, m)).1 = s + (l.map passOneWeight).sum := by
  intro l
  induction l with
  | nil => intro s m; simp
  | cons w l ih =>
    intro s m
    rw [List.foldl_cons]
    cases hw : firstGroupHit w with
    | some g =>
      simp only [passOneStep, hw]
      rw [ih]
      simp only [List.map_cons, List.sum_cons, passOneWeight, hw, Option.isSome_some, if_pos]
      ring
    | none =>
      simp only [passOneStep, hw]
      rw [ih]
      simp only [List.map_cons, List.sum_cons, passOneWeight, hw, Option.isSome_none]
      norm_num
      ring

theorem passOne_snd_mem :
    ∀ (l : List Str) (s : ℚ) (m : List Str) (g : Str),
      g ∈ (l.foldl passOneStep (s, m)).2 ↔ g ∈ m ∨ ∃ w ∈ l, firstGroupHit w = some g := by
  intro l
  induction l with
  | nil => intro s m g; simp
  | cons w l ih =>
    intro s m g
    rw [List.foldl_cons]
    cases hw : firstGroupHit w with
    | some g' =>
      simp only [passOneStep, hw]
      rw [ih]
      have hadd : g ∈ (if g' ∈ m then m else m ++ [g']) ↔ g ∈ m ∨ g = g' := by
        split
        · rename_i hin
          constructor
          · exact Or.inl
          · rintro (h | rfl)
            · exact h
            · exact hin
        · simp [List.mem_append]
      rw [hadd]
      simp only [List.mem_cons]
      constructor
      · rintro ((h | rfl) | ⟨x, hx, hhit⟩)
        · exact Or.inl h
        · exact Or.inr ⟨w, Or.inl rfl, hw⟩
        · exact Or.inr ⟨x, Or.inr hx, hhit⟩
      · rintro (h | ⟨x, (rfl | hx), hhit⟩)
        · exact Or.inl (Or.inl h)
        · rw [hw] at hhit
          cases hhit
          exact Or.inl (Or.inr rfl)
        · exact Or.inr ⟨x, hx, hhit⟩
    | none =>
      simp only [passOneStep, hw]
      rw [ih]
      simp only [List.mem_cons]
      constructor
      · rintro (h | ⟨x, hx, hhit⟩)
        · exact Or.inl h
        · exact Or.inr ⟨x, Or.inr hx, hhit⟩
      · rintro (h | ⟨x, (rfl | hx), hhit⟩)
        · exact Or.inl h
        · rw [hw] at hhit
          cases hhit
        · exact Or.inr ⟨x, hx, hhit⟩

theorem passTwoStep_eq (wa wb : List Str) (s : ℚ) (m : List Str) (grp : Str × List Str) :
    passTwoStep wa wb (s, m) grp =
      if (∃ t ∈ grp.2, t ∈ wa) ∧ (∃ t ∈ grp.2, t ∈ wb) ∧ grp.1 ∉ m then
        (s + 3 / 2, m ++ [grp.1])
      else (s, m) := rfl

theorem passTwo_foldl_congr (w1 w2 : List Str) :
    ∀ (gl : List (Str × List Str)) (s : ℚ) (m1 m2 : List Str),
      (∀ g, g ∈ m1 ↔ g ∈ m2) →
      (gl.foldl (passTwoStep w1 w2) (s, m1)).1 = (gl.foldl (passTwoStep w2 w1) (s, m2)).1 := by
  intro gl
  induction gl with
  | nil => intro s m1 m2 _; rfl
  | cons grp gl ih =>
    intro s m1 m2 hm
    rw [List.foldl_cons, List.foldl_cons, passTwoStep_eq, passTwoStep_eq]
    by_cases hc : (∃ t ∈ grp.2, t ∈ w1) ∧ (∃ t ∈ grp.2, t ∈ w2) ∧ grp.1 ∉ m1
    · rw [if_pos hc, if_pos ⟨hc.2.1, hc.1, fun hin => hc.2.2 ((hm grp.1).mpr hin)⟩]
      refine ih (s + 3 / 2) (m1 ++ [grp.1]) (m2 ++ [grp.1]) ?_
      intro g
      simp only [List.mem_append, List.mem_singleton, hm g]
    · rw [if_neg hc, if_neg]
      · exact ih s m1 m2 hm
      · intro ⟨h2, h1, hnot⟩
        exact hc ⟨h1, h2, fun hin => hnot ((hm grp.1).mp hin)⟩

theorem matching_perm (w1 w2 : List Str) :
    ((jsDedup w1).filter (fun w => decide (w ∈ jsDedup w2))).Perm
      ((jsDedup w2).filter (fun w => decide (w ∈ jsDedup w1))) := by
  rw [List.perm_ext_iff_of_nodup ((nodup_jsDedup w1).filter _) ((nodup_jsDedup w2).filter _)]
  intro a
  simp only [List.mem_filter, decide_eq_true_eq, mem_jsDedup]
  tauto

theorem categoryScore_symm (q1 q2 : RawQuestion) :
    categoryScore q1 q2 = categoryScore q2 q1 := by
  obtain ⟨t1, c1, r1, m1⟩ := q1
  obtain ⟨t2, c2, r2, m2⟩ := q2
  unfold categoryScore
  cases c1 with
  | none => cases c2 <;> rfl
  | some c1 =>
    cases c2 with
    | none => rfl
    | some c2 =>
      simp only
      by_cases h : c1 ≠ [] ∧ c2 ≠ [] ∧ toLowerStr c1 = toLowerStr c2
      · rw [if_pos h, if_pos ⟨h.2.1, h.1, h.2.2.symm⟩]
      · rw [if_neg h, if_neg]
        intro ⟨ha, hb, hcq⟩
        exact h ⟨hb, ha, hcq.symm⟩

theorem overlapScore_symm (q1 q2 : RawQuestion) :
    overlapScore q1 q2 = overlapScore q2 q1 := by
  simp only [overlapScore]
  have hperm := matching_perm (scorerWords q1) (scorerWords q2)
  have hfst :
      (passOne ((jsDedup (scorerWords q1)).filter
          (fun w => decide (w ∈ jsDedup (scorerWords q2))))).1
        = (passOne ((jsDedup (scorerWords q2)).filter
          (fun w => decide (w ∈ jsDedup (scorerWords q1))))).1 := by
    rw [passOne, passOne, passOne_fst, passOne_fst, (hperm.map passOneWeight).sum_eq]
  have hmem : ∀ g,
      g ∈ (passOne ((jsDedup (scorerWords q1)).filter
          (fun w => decide (w ∈ jsDedup (scorerWords q2))))).2
        ↔ g ∈ (passOne ((jsDedup (scorerWords q2)).filter
          (fun w => decide (w ∈ jsDedup (scorerWords q1))))).2 := by
    intro g
    rw [passOne, passOne, passOne_snd_mem, passOne_snd_mem]
    constructor
    · rintro (h | ⟨w, hw, hhit⟩)
      · simp at h
      · exact Or.inr ⟨w, hperm.mem_iff.mp hw, hhit⟩
    · rintro (h | ⟨w, hw, hhit⟩)
      · simp at h
      · exact Or.inr ⟨w, hperm.mem_iff.mpr hw, hhit⟩
  have hpass :
      passTwo (scorerWords q1) (scorerWords q2)
          (passOne ((jsDedup (scorerWords q1)).filter
            (fun w => decide (w ∈ jsDedup (scorerWords q2)))))
        = passTwo (scorerWords q2) (scorerWords q1)
          (passOne ((jsDedup (scorerWords q2)).filter
            (fun w => decide (w ∈ jsDedup (scorerWords q1))))) := by
    rw [passTwo, passTwo, ← Prod.mk.eta
      (p := passOne ((jsDedup (scorerWords q1)).filter
        (fun w => decide (w ∈ jsDedup (scorerWords q2))))),
      ← Prod.mk.eta
      (p := passOne ((jsDedup (scorerWords q2)).filter
        (fun w => decide (w ∈ jsDedup (scorerWords q1))))),
      hfst]
    exact passTwo_foldl_congr (scorerWords q1) (scorerWords q2) semanticGroups _ _ _ hmem
  rw [hpass, add_comm ((jsDedup (scorerWords q1)).length : ℚ)
    ((jsDedup (scorerWords q2)).length : ℚ)]

theorem structureScore_symm (q1 q2 : RawQuestion) :
    structureScore q1 q2 = structureScore q2 q1 := by
  unfold structureScore
  by_cases h : structureOf (toLowerStr q1.question) = structureOf (toLowerStr q2.question)
  · rw [if_pos h, if_pos h.symm]
  · rw [if_neg h, if_neg (fun hh => h hh.symm)]

theorem find?_congr_pred {α : Type} {p q : α → Bool} (h : ∀ a, p a = q a) :
    ∀ l : List α, l.find? p = l.find? q := by
  intro l
  induction l with
  | nil => rfl
  | cons a l ih =>
    rw [List.find?_cons, List.find?_cons, h a]
    cases q a
    · exact ih
    · rfl

theorem patternScore_symm (q1 q2 : RawQuestion) :
    patternScore q1 q2 = patternScore q2 q1 := by
  unfold patternScore
  rw [find?_congr_pred (fun pat => Bool.and_comm _ _) questionPatterns]

/-- C6: the similarity scorer is symmetric — the total score and each of its
components (category, lexical/semantic overlap including both passes,
structural prefix, pattern) are invariant under swapping the two questions;
the threshold gate therefore behaves symmetrically as well. -/
theorem similarity_symmetric (q1 q2 : RawQuestion) :
    calculateQuestionSimilarity q1 q2 = calculateQuestionSimilarity q2 q1 ∧
    categoryScore q1 q2 = categoryScore q2 q1 ∧
    overlapScore q1 q2 = overlapScore q2 q1 ∧
    structureScore q1 q2 = structureScore q2 q1 ∧
    patternScore q1 q2 = patternScore q2 q1 := by
  refine ⟨?_, categoryScore_symm q1 q2, overlapScore_symm q1 q2,
    structureScore_symm q1 q2, patternScore_symm q1 q2⟩
  simp only [calculateQuestionSimilarity]
  rw [categoryScore_symm, overlapScore_symm, structureScore_symm, patternScore_symm]
